import Mathlib

/-!
Verification of the GitHub proxy backend plugin: a shallow embedding of
the router handler, the URL reader (readUrl, readTree, search), the
client factory (getOctokit), the per-host client cache
(GithubClient.forHost) and the rate-limit metrics middleware, together
with theorems settling the specification claims.

Conventions: optional TypeScript fields become Option, thrown exceptions
become Except or dedicated outcome constructors, external calls (the
upstream GitHub API, discovery, credential resolution) become function
or value parameters, and Buffer.from(s, base64) is kept as an
uninterpreted wrapper around its input string.
-/

namespace Backstage

/-- The JS `s.startsWith(pre)` test, computed on the character lists of
the two strings. -/
def strStartsWith (s pre : String) : Bool :=
  pre.data.isPrefixOf s.data

/-- The JS `s.split(sep)` for a one-character separator, computed on the
character list: splitting the empty string yields one empty segment, as
in JS. -/
def splitOnChar (sep : Char) : List Char → List (List Char)
  | [] => [[]]
  | c :: rest =>
    match splitOnChar sep rest with
    | [] => [[]]
    | seg :: segs => if c == sep then [] :: seg :: segs else (c :: seg) :: segs

/-- An entry of a recursive git tree listing. The GitHub API response
type marks both fields as optional, and the code itself guards `path`
with optional chaining in one place and non-null assertions in others,
so both are modelled as Option. -/
structure TreeEntry where
  type : Option String
  path : Option String
deriving DecidableEq, Repr

/-- The blob selection of GitHubUrlReader.readTree (reader.ts lines
129-131). The filter callback is
`item.type === "blob" && (!path || item.path?.startsWith(path))` (the
source uses single quotes around blob):
`!path` is true exactly when the parsed sub-path is the empty string,
and the optional chain yields a falsy value when `path` is absent. -/
def readTreeSelect (subpath : String) (tree : List TreeEntry) : List TreeEntry :=
  tree.filter (fun item =>
    item.type == some "blob" &&
      (subpath == "" ||
        (match item.path with
          | some p => strStartsWith p subpath
          | none => false)))

/-- Matching of the minimatch pattern `**` with default options, the
pattern search uses when the URL has no sub-path: a trailing globstar
matches any sequence of path segments except when some segment begins
with a dot (minimatch by default refuses to match dotfiles, and the
segments `.` and `..` also begin with a dot). -/
def matchesGlobstar (p : String) : Bool :=
  (splitOnChar '/' p.data).all (fun seg =>
    match seg with
    | [] => true
    | c :: _ => c != '.')

/-- The blob selection of GitHubUrlReader.search (reader.ts lines
201-203), parameterized by the matcher of the glob pattern. The filter
callback is `item.type === "blob" && minimatch(item.path!, path or-else
the pattern **)`;
when a blob entry has an absent path, minimatch receives undefined and
throws a TypeError while splitting it, which aborts the whole filter. -/
def searchSelectWith (m : String → Bool) : List TreeEntry → Except String (List TreeEntry)
  | [] => .ok []
  | item :: rest =>
    if item.type == some "blob" then
      match item.path with
      | none => .error "TypeError: undefined path given to minimatch"
      | some p =>
        match searchSelectWith m rest with
        | .error e => .error e
        | .ok sel => .ok (if m p then item :: sel else sel)
    else searchSelectWith m rest

/-- The blob selection of search for a URL with no sub-path: the glob
pattern defaults to `**`. -/
def searchSelectNoSub (tree : List TreeEntry) : Except String (List TreeEntry) :=
  searchSelectWith matchesGlobstar tree

/-- Modelled from the spec sentence of C2: the selection it claims for
readTree, namely the blob-typed entries whose path is present and, when
a sub-path was given, starts with that sub-path. Written for comparison
with `readTreeSelect`, which is translated from the source. -/
def claimedReadTreeSelect (subpath : String) (tree : List TreeEntry) : List TreeEntry :=
  tree.filter (fun item =>
    item.type == some "blob" &&
      (match item.path with
        | some p => subpath == "" || strStartsWith p subpath
        | none => false))

/-- A decoded file buffer: `Buffer.from(s, base64)`, kept uninterpreted
as a wrapper around the base64 source text. -/
structure DecodedBuffer where
  base64Source : String
deriving DecidableEq, Repr

/-- The data of a repos.getContent response: file data carrying content
and encoding, or a directory listing, which has no `content` field. -/
inductive ContentData
  | file (content : String) (encoding : String)
  | dir
deriving DecidableEq, Repr

/-- The outcome of one repos.getContent call: a successful response with
its data and the response headers the reader looks at, or a thrown
request error carrying an optional HTTP status and a message. -/
inductive ContentResult
  | ok (data : ContentData) (etagHeader : Option String) (lastModifiedHeader : Option String)
  | err (status : Option Nat) (msg : String)
deriving DecidableEq, Repr

/-- The outcome of GitHubUrlReader.readUrl: a successful read with the
decoded buffer and the cache headers, the distinguished NotModifiedError,
or a generic error. -/
inductive ReadUrlOutcome
  | success (buffer : DecodedBuffer) (etag : Option String) (lastModifiedAt : Option String)
  | notModified
  | failure (msg : String)
deriving DecidableEq, Repr

/-- The conditional-fetch headers readUrl sends: `If-None-Match` is set
exactly when the caller supplied an etag (reader.ts lines 81-83). -/
def readUrlRequestHeaders (etag : Option String) : List (String × String) :=
  match etag with
  | some e => [("If-None-Match", e)]
  | none => []

/-- GitHubUrlReader.readUrl response handling (reader.ts lines 75-108):
the try block turns a directory response or a non-base64 encoding into a
thrown generic error and otherwise decodes the content; the catch block
turns any caught error whose status is 304 into NotModifiedError and
rethrows every other error. The errors the try block itself throws carry
no status, so they are rethrown unchanged. -/
def readUrl (resp : ContentResult) : ReadUrlOutcome :=
  match resp with
  | .err status msg =>
    if status == some 304 then .notModified else .failure msg
  | .ok .dir _ _ => .failure "Expected file but got a directory"
  | .ok (.file content encoding) etagHeader lastModifiedHeader =>
    if encoding != "base64" then .failure ("Unsupported encoding: " ++ encoding)
    else .success ⟨content⟩ etagHeader lastModifiedHeader

/-- The per-blob fetch-and-materialize phase of readTree together with
its Promise.all aggregation (reader.ts lines 135-162), determinized in
list order: a thrown fetch error rejects the whole batch, a directory
response is silently skipped (the callback returns early), a non-base64
encoding throws and rejects the whole batch, and a base64 file is
decoded and recorded for its mirrored write under the temporary
directory. -/
def fetchAll (fetch : TreeEntry → ContentResult) :
    List TreeEntry → Except String (List (Option String × DecodedBuffer))
  | [] => .ok []
  | f :: rest =>
    match fetch f with
    | .err _ msg => .error msg
    | .ok .dir _ _ => fetchAll fetch rest
    | .ok (.file content encoding) _ _ =>
      if encoding != "base64" then .error ("Unsupported encoding: " ++ encoding)
      else
        match fetchAll fetch rest with
        | .error e => .error e
        | .ok l => .ok ((f.path, ⟨content⟩) :: l)

/-- GitHubUrlReader.readTree after the tree listing: select the blobs of
the recursive listing, then fetch and materialize every selected blob;
the result is the list of mirrored writes, or the error that rejected
the batch. -/
def readTreeFetch (subpath : String) (tree : List TreeEntry)
    (fetch : TreeEntry → ContentResult) :
    Except String (List (Option String × DecodedBuffer)) :=
  fetchAll fetch (readTreeSelect subpath tree)

/-- A single blob fetch failing in the sense of C5: the getContent call
throws, or it returns file data with an encoding other than base64. -/
def blobFetchFails (fetch : TreeEntry → ContentResult) (f : TreeEntry) : Prop :=
  (∃ st msg, fetch f = .err st msg) ∨
  (∃ c enc et lm, fetch f = .ok (.file c enc) et lm ∧ enc ≠ "base64")

/-- First-match lookup in an association list keyed by strings; models
both property access on a JS header object and Map.get. -/
def lookupAssoc {α : Type} (l : List (String × α)) (k : String) : Option α :=
  (l.find? (fun p => p.1 == k)).map (fun p => p.2)

/-- The JS `s.replace(pat, repl)` with a string pattern, on character
lists: only the first (leftmost) occurrence of the pattern is replaced;
a string without the pattern is returned unchanged. -/
def replaceFirstAux (pat repl : List Char) : List Char → List Char
  | [] => []
  | c :: rest =>
    if pat.isPrefixOf (c :: rest) then repl ++ (c :: rest).drop pat.length
    else c :: replaceFirstAux pat repl rest

/-- The JS `s.replace(pat, repl)` with a string pattern and replacement. -/
def jsReplaceFirst (s pat repl : String) : String :=
  ⟨replaceFirstAux pat.data repl.data s.data⟩

/-- Deletion of a header key: the JS `delete obj[k]`. -/
def deleteHeader (hs : List (String × String)) (k : String) : List (String × String) :=
  hs.filter (fun p => p.1 != k)

/-- Assignment of a header key: the JS `obj[k] = v`, overwriting in
place when the key exists and appending otherwise. -/
def setHeader : List (String × String) → String → String → List (String × String)
  | [], k, v => [(k, v)]
  | p :: rest, k, v => if p.1 == k then (k, v) :: rest else p :: setHeader rest k v

/-- An inbound request as the router handler sees it. -/
structure ProxyRequest where
  method : String
  originalUrl : String
  headers : List (String × String)
  body : String
deriving DecidableEq, Repr

/-- The request the router issues through octokit.request. -/
structure UpstreamRequest where
  method : String
  url : String
  data : String
deriving DecidableEq, Repr

/-- The outcome of octokit.request: a response with status, headers and
parsed data (the data is kept abstract as a string), or a thrown error
with an optional status and a message. -/
inductive UpstreamResult
  | ok (status : Nat) (headers : List (String × String)) (data : String)
  | err (status : Option Nat) (msg : String)
deriving DecidableEq, Repr

/-- The body the router writes back: `JSON.stringify(response.data)` on
success, or the error envelope around the message on failure; JSON
serialization stays uninterpreted as a tag on its input. -/
inductive WireBody
  | jsonStringified (data : String)
  | errorEnvelope (msg : String)
deriving DecidableEq, Repr

/-- The response the router writes to the caller. -/
structure WrittenResponse where
  status : Nat
  headers : List (String × String)
  body : WireBody
deriving DecidableEq, Repr

/-- What the router handler does with one request: an InputError thrown
before the try block, or a written response. -/
inductive RouterOutcome
  | inputError (msg : String)
  | response (r : WrittenResponse)
deriving DecidableEq, Repr

/-- A trace of one handler run: its outcome, how many times getOctokit
ran, and the upstream requests issued through the client, in order. -/
structure RouterTrace where
  outcome : RouterOutcome
  octokitCalls : Nat
  upstreamCalls : List UpstreamRequest
deriving DecidableEq, Repr

/-- The JS `error.status || 500` of the router catch block: a missing
status, like the falsy status 0, becomes 500. -/
def jsStatusOr500 (status : Option Nat) : Nat :=
  match status with
  | some s => if s == 0 then 500 else s
  | none => 500

/-- The request handler createRouter installs (router.ts lines 49-96),
as a function of whether getOctokit yields a client and of the upstream
behavior. Reading the absent or empty `github-host` header gives a falsy
value, so the handler throws InputError before constructing any client;
otherwise it builds the upstream path with
`originalUrl.replace("/api/github", "")`, issues the upstream request
with method and body passed through, and on success relays the upstream
status with the upstream headers minus transfer-encoding and
content-encoding, content-type forced to application/json, and the data
serialized as JSON; on a thrown upstream error it answers with the error
status (or 500) and the error envelope. -/
def handleRequest (octokitAvailable : Bool)
    (upstream : UpstreamRequest → UpstreamResult) (req : ProxyRequest) : RouterTrace :=
  match lookupAssoc req.headers "github-host" with
  | none => ⟨.inputError "Missing github-host header", 0, []⟩
  | some u =>
    if u == "" then ⟨.inputError "Missing github-host header", 0, []⟩
    else if !octokitAvailable then
      ⟨.response ⟨500, [], .errorEnvelope ("Failed to create Octokit instance for " ++ u)⟩, 1, []⟩
    else
      let fwd : UpstreamRequest :=
        ⟨req.method, jsReplaceFirst req.originalUrl "/api/github" "", req.body⟩
      match upstream fwd with
      | .ok status headers data =>
        ⟨.response ⟨status,
            setHeader (deleteHeader (deleteHeader headers "transfer-encoding")
              "content-encoding") "content-type" "application/json",
            .jsonStringified data⟩,
          1, [fwd]⟩
      | .err status msg =>
        ⟨.response ⟨jsStatusOr500 status, [], .errorEnvelope msg⟩, 1, [fwd]⟩

/-- Modelled from the spec sentence of C6: stripping the fixed internal
prefix /api/github from the inbound path, which leaves a path unchanged
when it does not start with that prefix. Written for comparison with the
path rewrite of `handleRequest`, which is translated from the source. -/
def claimedStripApiGithub (s : String) : String :=
  if strStartsWith s "/api/github" then ⟨s.data.drop "/api/github".length⟩ else s

/-- The configuration of the Octokit client getOctokit constructs: the
resolved token, the apiBaseUrl of the matched integration when one
exists, the retry options, and whether the throttle callbacks always ask
to continue. -/
structure OctokitConfig where
  auth : Option String
  baseUrl : Option String
  retries : Nat
  doNotRetry : List String
  throttleAlwaysRetries : Bool
deriving DecidableEq, Repr

/-- getOctokit (octokit.ts lines 11-50): credential resolution and the
integration lookup run inside a try block; any failure there is logged
and yields undefined instead of propagating, and on success the client
is built with the token, the apiBaseUrl of the integration when found,
3 retries with the fixed do-not-retry status list, and rate-limit
callbacks that always request a retry. The two resolution steps are
passed as Except values; the second component of the result is the log
output. -/
def getOctokit (credentials : Except String (Option String))
    (integration : Except String (Option String)) :
    Option OctokitConfig × List String :=
  match credentials with
  | .error e => (none, ["Error creating Octokit: " ++ e])
  | .ok token =>
    match integration with
    | .error e => (none, ["Error creating Octokit: " ++ e])
    | .ok apiBaseUrl =>
      (some ⟨token, apiBaseUrl, 3,
        ["400", "401", "403", "404", "422", "429", "501"], true⟩, [])

/-- The client GithubClient.forHost constructs on a cache miss: the
discovered base URL, the pre-set github-host request header, and the
retry and throttle switches. -/
structure CachedOctokit where
  baseUrl : String
  hostHeader : String
  retryEnabled : Bool
  throttleEnabled : Bool
deriving DecidableEq, Repr

/-- The private per-instance cache of GithubClient, a host-to-client
map modelled as an association list updated by prepending. -/
structure GithubClientState where
  octokitCache : List (String × CachedOctokit)
deriving DecidableEq, Repr

/-- The result of one forHost call: the returned client, the cache state
afterwards, and whether the call performed base-URL discovery. -/
structure ForHostResult where
  client : CachedOctokit
  state : GithubClientState
  discoveryCalled : Bool
deriving DecidableEq, Repr

/-- GithubClient.forHost (the client cache): on a cache hit the memoized
client is returned and discovery does not run; on a miss the base URL of
the github backend is discovered (its value is the `baseUrl` parameter),
a client is constructed with every request pre-tagged with the
github-host header set to the requested host and with retry and throttle
disabled, and the client is stored under the host. -/
def forHost (baseUrl : String) (s : GithubClientState) (host : String) : ForHostResult :=
  match lookupAssoc s.octokitCache host with
  | some c => ⟨c, s, false⟩
  | none =>
    let c : CachedOctokit := ⟨baseUrl, host, false, false⟩
    ⟨c, ⟨(host, c) :: s.octokitCache⟩, true⟩

/-- The invariant of the GithubClient cache: every stored client carries
the github-host header of the host it is stored under. It holds for the
empty cache of a fresh instance and is preserved by forHost. -/
def CacheWellFormed (s : GithubClientState) : Prop :=
  ∀ p ∈ s.octokitCache, p.2.hostHeader = p.1

/-- A header value as res.getHeader returns it: a string, a number, or
an array of strings. -/
inductive HeaderValue
  | str (s : String)
  | num (n : Int)
  | strs (l : List String)
deriving DecidableEq, Repr

/-- Leading digits of a character list. -/
def takeDigits : List Char → List Char
  | [] => []
  | c :: rest => if c.isDigit then c :: takeDigits rest else []

/-- The JS `parseInt(s, 10)`: leading whitespace is skipped, an optional
sign is read, and the longest leading digit run is parsed; none models
NaN, returned when no digits follow. -/
def parseIntJS (s : String) : Option Int :=
  let t := s.data.dropWhile (fun c => c == ' ' || c == '\t' || c == '\n' || c == '\r')
  let signed : Int × List Char :=
    match t with
    | '-' :: r => (-1, r)
    | '+' :: r => (1, r)
    | r => (1, r)
  let ds := takeDigits signed.2
  if ds.isEmpty then none
  else some (signed.1 * ds.foldl (fun a c => a * 10 + ((c.toNat : Int) - 48)) 0)

/-- One gauge emission of rateLimitMetricsMiddleware (githubService.ts
finish listener): the gauge is set only when res.getHeader returned a
value of string type, and then always, with `parseInt(value, 10)` as the
observation; an absent header or a non-string value is skipped without
an error. The outer Option is whether `set` runs at all; the inner
Option is the observed number, none standing for NaN. -/
def metricEmission (v : Option HeaderValue) : Option (Option Int) :=
  match v with
  | some (.str s) => some (parseIntJS s)
  | _ => none

/-- The three gauge emissions of one finished response: limit and
remaining observe the parsed header directly; reset observes
`parseInt(reset, 10) - now`, with NaN propagating through the
subtraction. -/
def rateLimitEmissions (limit remaining reset : Option HeaderValue) (now : Int) :
    Option (Option Int) × Option (Option Int) × Option (Option Int) :=
  (metricEmission limit,
   metricEmission remaining,
   (metricEmission reset).map (fun x => x.map (fun n => n - now)))

/-! Supporting lemmas. -/

/-- Membership in the readTree blob selection, characterized: an entry is
selected exactly when it is a blob-typed entry of the tree and either the
sub-path is empty (in which case the path may be absent) or its path is
present and starts with the sub-path. -/
lemma mem_readTreeSelect_iff (subpath : String) (tree : List TreeEntry) (item : TreeEntry) :
    item ∈ readTreeSelect subpath tree ↔
      item ∈ tree ∧ item.type = some "blob" ∧
        (subpath = "" ∨ ∃ p, item.path = some p ∧ strStartsWith p subpath = true) := by
  rw [readTreeSelect, List.mem_filter]
  cases hp : item.path with
  | none => simp [hp]
  | some p => simp [hp, and_assoc]

/-- Every entry of a successful search selection has a present path: the
filter throws on an absent path instead of selecting the entry. -/
lemma searchSelectWith_ok_paths (m : String → Bool) :
    ∀ (tree sel : List TreeEntry), searchSelectWith m tree = .ok sel →
      ∀ item ∈ sel, item.path.isSome = true := by
  intro tree
  induction tree with
  | nil =>
    intro sel h item hm
    simp only [searchSelectWith, Except.ok.injEq] at h
    subst h
    simp at hm
  | cons hd tl ih =>
    intro sel h item hm
    unfold searchSelectWith at h
    by_cases hb : (hd.type == some "blob") = true
    · rw [if_pos hb] at h
      cases hp : hd.path with
      | none => rw [hp] at h; exact absurd h (by simp)
      | some p =>
        rw [hp] at h
        cases hrec : searchSelectWith m tl with
        | error e => rw [hrec] at h; exact absurd h (by simp)
        | ok sel2 =>
          rw [hrec] at h
          simp only [Except.ok.injEq] at h
          subst h
          by_cases hmp : m p = true
          · rw [if_pos hmp] at hm
            rcases List.mem_cons.mp hm with rfl | hm2
            · simp [hp]
            · exact ih sel2 hrec item hm2
          · rw [if_neg hmp] at hm
            exact ih sel2 hrec item hm
    · rw [if_neg hb] at h
      exact ih sel h item hm

/-! Claim theorems. -/

/-- Claim C1: when the inbound headers lack the github-host header, the
handler throws InputError before the try block, so getOctokit never runs
and no upstream request is issued. -/
theorem router_inputError_without_upstream (octokitAvailable : Bool)
    (upstream : UpstreamRequest → UpstreamResult) (req : ProxyRequest)
    (h : lookupAssoc req.headers "github-host" = none) :
    handleRequest octokitAvailable upstream req =
      ⟨.inputError "Missing github-host header", 0, []⟩ := by
  simp [handleRequest, h]

/-- Witness for C1: a concrete request with no headers at all. -/
theorem router_inputError_without_upstream_witness :
    handleRequest true (fun _ => .ok 200 [] "d") ⟨"GET", "/api/github/x", [], "b"⟩ =
      ⟨.inputError "Missing github-host header", 0, []⟩ :=
  router_inputError_without_upstream true (fun _ => .ok 200 [] "d")
    ⟨"GET", "/api/github/x", [], "b"⟩ rfl

/-- Counterexample to C2 as stated: with an empty sub-path the filter
short-circuits before looking at the path, so a blob entry with an
absent path is selected, while the claimed selection keeps only entries
whose path is present. -/
theorem readTreeSelect_violates_claimed_selection :
    readTreeSelect "" [⟨some "blob", none⟩] = [⟨some "blob", none⟩] ∧
    claimedReadTreeSelect "" [⟨some "blob", none⟩] = [] := by
  decide

/-- Claim C2, amended: readTree selects exactly the blob-typed entries
and, when the URL has a non-empty sub-path, exactly those whose path is
present and starts with it (plain prefix match); with an empty sub-path
every blob-typed entry is selected, whether or not its path is
present. -/
theorem readTreeSelect_characterization (subpath : String) (tree : List TreeEntry)
    (item : TreeEntry) :
    item ∈ readTreeSelect subpath tree ↔
      item ∈ tree ∧ item.type = some "blob" ∧
        (subpath = "" ∨ ∃ p, item.path = some p ∧ strStartsWith p subpath = true) :=
  mem_readTreeSelect_iff subpath tree item

/-- Witness for C2: the characterization applied to a concrete selected
entry under a concrete non-empty sub-path. -/
theorem readTreeSelect_characterization_witness :
    (⟨some "blob", some "docs/a.md"⟩ : TreeEntry) ∈
      readTreeSelect "docs" [⟨some "blob", some "docs/a.md"⟩, ⟨some "blob", some "x"⟩] :=
  (readTreeSelect_characterization "docs" [⟨some "blob", some "docs/a.md"⟩, ⟨some "blob", some "x"⟩]
    ⟨some "blob", some "docs/a.md"⟩).mpr (by decide)

/-- Claim C4: a getContent call that throws with HTTP status 304 makes
readUrl end in the distinguished NotModifiedError outcome, so by
constructor disjointness it ends neither in a generic failure nor in a
content buffer; the supplied etag is what the conditional request header
carried upstream. -/
theorem readUrl_notModified_on_304 (e : String) (msg : String) :
    readUrlRequestHeaders (some e) = [("If-None-Match", e)] ∧
    readUrl (.err (some 304) msg) = .notModified := by
  exact ⟨rfl, by simp [readUrl]⟩

/-- Witness for C4 at a concrete etag and error message. -/
theorem readUrl_notModified_on_304_witness :
    readUrlRequestHeaders (some "etag123") = [("If-None-Match", "etag123")] ∧
    readUrl (.err (some 304) "Not Modified") = .notModified :=
  readUrl_notModified_on_304 "etag123" "Not Modified"

/-- Counterexample to C3 as stated: on a tree whose only blob is the
dotfile `.hidden`, readTree with no sub-path selects it, while search
with no sub-path does not, because minimatch with default options never
matches a path segment beginning with a dot against `**`. -/
theorem searchSelect_excludes_dotfile_readTree_keeps :
    searchSelectNoSub [⟨some "blob", some ".hidden"⟩] = .ok [] ∧
    readTreeSelect "" [⟨some "blob", some ".hidden"⟩] = [⟨some "blob", some ".hidden"⟩] := by
  exact ⟨rfl, by decide⟩

/-- Claim C3, amended: on a tree where every blob-typed entry has a
present path (otherwise search throws a TypeError), search with no
sub-path selects exactly the entries of the unfiltered readTree
selection whose path has no segment beginning with a dot; the two
selections agree except that search drops dotfile paths. -/
theorem searchSelect_eq_filtered_readTreeSelect (tree : List TreeEntry)
    (h : ∀ item ∈ tree, item.type = some "blob" → item.path.isSome = true) :
    searchSelectNoSub tree =
      .ok ((readTreeSelect "" tree).filter (fun item =>
        match item.path with
        | some p => matchesGlobstar p
        | none => false)) := by
  unfold searchSelectNoSub
  induction tree with
  | nil => rfl
  | cons hd tl ih =>
    have htl : ∀ item ∈ tl, item.type = some "blob" → item.path.isSome = true :=
      fun item hm => h item (List.mem_cons_of_mem hd hm)
    have hrec := ih htl
    by_cases hb : (hd.type == some "blob") = true
    · have hbeq : hd.type = some "blob" := by
        exact beq_iff_eq.mp hb
      obtain ⟨p, hp⟩ := Option.isSome_iff_exists.mp (h hd (List.mem_cons_self hd tl) hbeq)
      unfold searchSelectWith
      rw [if_pos hb, hp, hrec]
      have hsel : readTreeSelect "" (hd :: tl) = hd :: readTreeSelect "" tl := by
        unfold readTreeSelect
        rw [List.filter_cons]
        simp [hb]
      rw [hsel, List.filter_cons]
      by_cases hmp : matchesGlobstar p = true
      · simp [hp, hmp]
      · simp [hp, hmp]
    · unfold searchSelectWith
      rw [if_neg hb, hrec]
      have hsel : readTreeSelect "" (hd :: tl) = readTreeSelect "" tl := by
        unfold readTreeSelect
        rw [List.filter_cons]
        simp [hb]
      rw [hsel]

/-- Witness for C3 on a concrete two-blob tree with one dotfile-free
sub-directory path. -/
theorem searchSelect_eq_filtered_readTreeSelect_witness :
    searchSelectNoSub [⟨some "blob", some "a.txt"⟩, ⟨some "tree", none⟩] =
      .ok ((readTreeSelect "" [⟨some "blob", some "a.txt"⟩, ⟨some "tree", none⟩]).filter
        (fun item =>
          match item.path with
          | some p => matchesGlobstar p
          | none => false)) :=
  searchSelect_eq_filtered_readTreeSelect [⟨some "blob", some "a.txt"⟩, ⟨some "tree", none⟩]
    (by decide)

/-- One blob failing fails the whole fetch batch, by induction over the
selected files. -/
lemma fetchAll_error_of_mem (fetch : TreeEntry → ContentResult) :
    ∀ (files : List TreeEntry) (f : TreeEntry), f ∈ files →
      blobFetchFails fetch f → ∃ e, fetchAll fetch files = .error e := by
  intro files
  induction files with
  | nil => intro f hf; exact absurd hf (by simp)
  | cons hd tl ih =>
    intro f hf hfail
    rcases List.mem_cons.mp hf with rfl | hmem
    · rcases hfail with ⟨st, msg, heq⟩ | ⟨c, enc, et, lm, heq, henc⟩
      · exact ⟨msg, by simp [fetchAll, heq]⟩
      · refine ⟨"Unsupported encoding: " ++ enc, ?_⟩
        have hne : (enc != "base64") = true := by
          simp [bne_iff_ne, henc]
        simp [fetchAll, heq, hne]
    · obtain ⟨e, he⟩ := ih f hmem hfail
      cases hhd : fetch hd with
      | err st msg => exact ⟨msg, by simp [fetchAll, hhd]⟩
      | ok data et lm =>
        cases data with
        | dir => exact ⟨e, by simp [fetchAll, hhd, he]⟩
        | file c enc =>
          by_cases henc : (enc != "base64") = true
          · exact ⟨"Unsupported encoding: " ++ enc, by simp [fetchAll, hhd, henc]⟩
          · exact ⟨e, by simp [fetchAll, hhd, henc, he]⟩

/-- Claim C5: when any blob selected for the tree read fails to fetch,
or fetches with an encoding other than base64, the whole readTree fetch
phase rejects with an error, never with a partial list of materialized
files. -/
theorem readTreeFetch_fails_on_single_blob_failure (subpath : String)
    (tree : List TreeEntry) (fetch : TreeEntry → ContentResult) (f : TreeEntry)
    (hmem : f ∈ readTreeSelect subpath tree) (hfail : blobFetchFails fetch f) :
    ∃ e, readTreeFetch subpath tree fetch = .error e :=
  fetchAll_error_of_mem fetch (readTreeSelect subpath tree) f hmem hfail

/-- Witness for C5: a two-blob tree where the second blob fetch throws;
the whole read rejects even though the first blob succeeds. -/
theorem readTreeFetch_fails_on_single_blob_failure_witness :
    ∃ e, readTreeFetch "" [⟨some "blob", some "a.txt"⟩, ⟨some "blob", some "b.txt"⟩]
      (fun f =>
        if f.path == some "b.txt" then .err (some 500) "boom"
        else .ok (.file "YQ==" "base64") none none) = .error e :=
  readTreeFetch_fails_on_single_blob_failure ""
    [⟨some "blob", some "a.txt"⟩, ⟨some "blob", some "b.txt"⟩]
    (fun f =>
      if f.path == some "b.txt" then .err (some 500) "boom"
      else .ok (.file "YQ==" "base64") none none)
    ⟨some "blob", some "b.txt"⟩ (by decide)
    (Or.inl ⟨some 500, "boom", by decide⟩)

/-- When the pattern is a prefix of the string, replacing its first
occurrence by the empty replacement is exactly dropping the prefix. -/
lemma replaceFirstAux_dropsIt (pat : List Char) :
    ∀ l : List Char, pat.isPrefixOf l = true →
      replaceFirstAux pat [] l = l.drop pat.length := by
  intro l hp
  cases l with
  | nil =>
    cases pat with
    | nil => rfl
    | cons c cs => simp [List.isPrefixOf] at hp
  | cons c rest =>
    unfold replaceFirstAux
    rw [if_pos hp]
    simp

/-- Counterexample to C6 as stated: for an inbound path that does not
start with /api/github but contains it in the middle, the handler
removes the embedded occurrence, while stripping the fixed prefix would
leave the path unchanged. -/
theorem router_rewrite_removes_embedded_occurrence :
    (handleRequest true (fun _ => .ok 200 [] "d")
        ⟨"GET", "/x/api/github/y", [("github-host", "github.com")], "b"⟩).upstreamCalls =
      [⟨"GET", "/x/y", "b"⟩] ∧
    claimedStripApiGithub "/x/api/github/y" = "/x/api/github/y" := by
  decide

/-- Claim C6, amended: for a request carrying a non-empty github-host
header, when client construction succeeds and the upstream call
succeeds, the handler forwards one upstream request whose path is the
inbound path with the first occurrence of /api/github removed (which
coincides with stripping the fixed prefix whenever the inbound path
starts with it) and whose method and body are the inbound ones verbatim,
and it writes back the upstream status verbatim, the upstream headers
with transfer-encoding and content-encoding removed and content-type
forced to application/json, and the upstream data serialized as JSON. -/
theorem router_success_relay (upstream : UpstreamRequest → UpstreamResult)
    (req : ProxyRequest) (u : String) (status : Nat)
    (headers : List (String × String)) (data : String)
    (hu : lookupAssoc req.headers "github-host" = some u) (hne : u ≠ "")
    (hup : upstream ⟨req.method, jsReplaceFirst req.originalUrl "/api/github" "", req.body⟩
      = .ok status headers data) :
    handleRequest true upstream req =
      ⟨.response ⟨status,
        setHeader (deleteHeader (deleteHeader headers "transfer-encoding") "content-encoding")
          "content-type" "application/json",
        .jsonStringified data⟩,
        1, [⟨req.method, jsReplaceFirst req.originalUrl "/api/github" "", req.body⟩]⟩ ∧
    (strStartsWith req.originalUrl "/api/github" = true →
      jsReplaceFirst req.originalUrl "/api/github" "" = claimedStripApiGithub req.originalUrl) := by
  constructor
  · have hne2 : (u == "") = false := by
      simp [hne]
    simp [handleRequest, hu, hne2, hup]
  · intro hpre
    unfold claimedStripApiGithub
    rw [if_pos hpre]
    unfold jsReplaceFirst
    unfold strStartsWith at hpre
    rw [replaceFirstAux_dropsIt _ _ hpre]
    rfl

/-- Witness for C6 at a concrete request, a concrete upstream response
with framing headers, and the canonical mounted path shape. -/
theorem router_success_relay_witness :
    handleRequest true
        (fun r =>
          if r.url == "/repos/o/r/contents/x" then
            .ok 200 [("transfer-encoding", "chunked"), ("etag", "W1")] "filedata"
          else .err none "wrong path")
        ⟨"GET", "/api/github/repos/o/r/contents/x", [("github-host", "github.com")], ""⟩ =
      ⟨.response ⟨200,
        setHeader (deleteHeader (deleteHeader [("transfer-encoding", "chunked"), ("etag", "W1")]
          "transfer-encoding") "content-encoding") "content-type" "application/json",
        .jsonStringified "filedata"⟩,
        1, [⟨"GET", "/repos/o/r/contents/x", ""⟩]⟩ ∧
    (strStartsWith "/api/github/repos/o/r/contents/x" "/api/github" = true →
      jsReplaceFirst "/api/github/repos/o/r/contents/x" "/api/github" "" =
        claimedStripApiGithub "/api/github/repos/o/r/contents/x") :=
  router_success_relay
    (fun r =>
      if r.url == "/repos/o/r/contents/x" then
        .ok 200 [("transfer-encoding", "chunked"), ("etag", "W1")] "filedata"
      else .err none "wrong path")
    ⟨"GET", "/api/github/repos/o/r/contents/x", [("github-host", "github.com")], ""⟩
    "github.com" 200 [("transfer-encoding", "chunked"), ("etag", "W1")] "filedata"
    (by decide) (by decide) (by decide)

/-- A cache hit returns a client whose host tag is the looked-up host,
given the cache invariant. -/
lemma lookupAssoc_hostHeader (s : GithubClientState) (host : String)
    (c : CachedOctokit) (hwf : CacheWellFormed s)
    (hl : lookupAssoc s.octokitCache host = some c) : c.hostHeader = host := by
  unfold lookupAssoc at hl
  cases hf : s.octokitCache.find? (fun p => p.1 == host) with
  | none => rw [hf] at hl; exact absurd hl (by simp)
  | some pair =>
    rw [hf] at hl
    simp only [Option.map_some', Option.some.injEq] at hl
    have h1 := List.find?_some hf
    have h2 : pair ∈ s.octokitCache := List.mem_of_find?_eq_some hf
    rw [← hl, hwf pair h2]
    exact beq_iff_eq.mp h1

/-- forHost preserves the cache invariant: a freshly constructed client
is stored under the host whose tag it carries. -/
lemma forHost_preserves_cacheWellFormed (baseUrl : String) (s : GithubClientState)
    (host : String) (hwf : CacheWellFormed s) :
    CacheWellFormed (forHost baseUrl s host).state := by
  unfold forHost
  cases hl : lookupAssoc s.octokitCache host with
  | some c => exact hwf
  | none =>
    intro p hp
    rcases List.mem_cons.mp hp with rfl | hmem
    · rfl
    · exact hwf p hmem

/-- Claim C7: under the cache invariant (which a fresh instance with an
empty cache satisfies), a forHost call returns a client tagged with the
requested host; a second call for the same host returns the identical
memoized client, leaves the cache unchanged and performs no discovery;
and whenever a call does perform discovery, the client it constructed
has retry and throttle disabled. -/
theorem forHost_memoized_host_tag (baseUrl : String) (s : GithubClientState)
    (host : String) (hwf : CacheWellFormed s) :
    (forHost baseUrl s host).client.hostHeader = host ∧
    (forHost baseUrl (forHost baseUrl s host).state host).client =
      (forHost baseUrl s host).client ∧
    (forHost baseUrl (forHost baseUrl s host).state host).discoveryCalled = false ∧
    (forHost baseUrl (forHost baseUrl s host).state host).state =
      (forHost baseUrl s host).state ∧
    ((forHost baseUrl s host).discoveryCalled = true →
      (forHost baseUrl s host).client.retryEnabled = false ∧
      (forHost baseUrl s host).client.throttleEnabled = false) := by
  cases hl : lookupAssoc s.octokitCache host with
  | some c =>
    have hc := lookupAssoc_hostHeader s host c hwf hl
    refine ⟨?_, ?_, ?_, ?_, ?_⟩ <;> simp [forHost, hl, hc]
  | none =>
    have hl2 : lookupAssoc ((host, (⟨baseUrl, host, false, false⟩ : CachedOctokit)) ::
        s.octokitCache) host = some ⟨baseUrl, host, false, false⟩ := by
      simp [lookupAssoc, List.find?]
    refine ⟨?_, ?_, ?_, ?_, ?_⟩ <;> simp [forHost, hl, hl2]

/-- Witness for C7: a fresh client cache and a concrete host. -/
theorem forHost_memoized_host_tag_witness :
    (forHost "http://base/api/github" ⟨[]⟩ "ghe.example.com").client.hostHeader =
        "ghe.example.com" ∧
    (forHost "http://base/api/github"
        (forHost "http://base/api/github" ⟨[]⟩ "ghe.example.com").state
        "ghe.example.com").client =
      (forHost "http://base/api/github" ⟨[]⟩ "ghe.example.com").client ∧
    (forHost "http://base/api/github"
        (forHost "http://base/api/github" ⟨[]⟩ "ghe.example.com").state
        "ghe.example.com").discoveryCalled = false ∧
    (forHost "http://base/api/github"
        (forHost "http://base/api/github" ⟨[]⟩ "ghe.example.com").state
        "ghe.example.com").state =
      (forHost "http://base/api/github" ⟨[]⟩ "ghe.example.com").state ∧
    ((forHost "http://base/api/github" ⟨[]⟩ "ghe.example.com").discoveryCalled = true →
      (forHost "http://base/api/github" ⟨[]⟩ "ghe.example.com").client.retryEnabled = false ∧
      (forHost "http://base/api/github" ⟨[]⟩ "ghe.example.com").client.throttleEnabled = false) :=
  forHost_memoized_host_tag "http://base/api/github" ⟨[]⟩ "ghe.example.com"
    (by intro p hp; exact absurd hp (by simp))

/-- Counterexample to C8 as stated: a non-numeric string header value is
not skipped; the gauge is set with parseInt of it, which is NaN for
`abc`, and for `12abc` the gauge even receives the number 12 although
the header value is not a numeric string. -/
theorem metricEmission_not_skipped_on_non_numeric :
    metricEmission (some (.str "abc")) = some none ∧
    metricEmission (some (.str "12abc")) = some (some 12) := by
  decide

/-- Claim C8, amended: a metric is skipped silently exactly when its
header is absent or its value is not of string type (numbers and string
arrays are skipped even when numeric); whenever the value is a string
the gauge is always set, with parseInt(value, 10) as the observation,
which is NaN for a string without a leading integer; and the reset gauge
observes the parsed value minus the current epoch second, NaN
propagating. -/
theorem metricEmission_characterization (v : Option HeaderValue) (now : Int) :
    (∀ s, v = some (.str s) → metricEmission v = some (parseIntJS s)) ∧
    (v = none → metricEmission v = none) ∧
    (∀ n, v = some (.num n) → metricEmission v = none) ∧
    (∀ l, v = some (.strs l) → metricEmission v = none) ∧
    (∀ s, v = some (.str s) →
      (rateLimitEmissions none none v now).2.2 =
        some ((parseIntJS s).map (fun n => n - now))) := by
  refine ⟨?_, ?_, ?_, ?_, ?_⟩
  · intro s hs; rw [hs]; rfl
  · intro hv; rw [hv]; rfl
  · intro n hn; rw [hn]; rfl
  · intro l hl; rw [hl]; rfl
  · intro s hs; rw [hs]; rfl

/-- Witness for C8: the string header value 5000 is observed as the
number 5000, applied through the characterization. -/
theorem metricEmission_characterization_witness :
    metricEmission (some (.str "5000")) = some (parseIntJS "5000") :=
  (metricEmission_characterization (some (.str "5000")) 0).1 "5000" rfl

/-- Claim C9: when credential resolution or the integration lookup
throws, getOctokit yields the absent client instead of propagating, and
logs exactly one error line. -/
theorem getOctokit_absent_on_resolution_failure
    (credentials integration : Except String (Option String))
    (h : (∃ e, credentials = .error e) ∨ (∃ e, integration = .error e)) :
    (getOctokit credentials integration).1 = none ∧
    (getOctokit credentials integration).2.length = 1 := by
  rcases h with ⟨e, he⟩ | ⟨e, he⟩
  · rw [he]
    exact ⟨rfl, rfl⟩
  · rw [he]
    cases credentials with
    | error e2 => exact ⟨rfl, rfl⟩
    | ok token => exact ⟨rfl, rfl⟩

/-- Witness for C9: a throwing credentials provider and a successful
integration lookup. -/
theorem getOctokit_absent_on_resolution_failure_witness :
    (getOctokit (.error "no credentials for host") (.ok none)).1 = none ∧
    (getOctokit (.error "no credentials for host") (.ok none)).2.length = 1 :=
  getOctokit_absent_on_resolution_failure (.error "no credentials for host") (.ok none)
    (Or.inl ⟨"no credentials for host", rfl⟩)

/-- Counterexample to C10 as stated: with an empty sub-path the readTree
filter selects a blob entry whose path is absent, so the non-null path
accesses that follow are not protected by the filter. -/
theorem readTreeSelect_selects_absent_path :
    readTreeSelect "" [⟨some "blob", some "a.txt"⟩, ⟨some "blob", none⟩] =
      [⟨some "blob", some "a.txt"⟩, ⟨some "blob", none⟩] ∧
    (⟨some "blob", none⟩ : TreeEntry).path = none := by
  decide

/-- Claim C10, amended: every entry the search filter selects has a
present path, for any glob matcher, because the filter throws instead of
selecting an entry with an absent path; and every entry the readTree
filter selects under a non-empty sub-path has a present path; but with
an empty sub-path the readTree filter can select an entry with an absent
path, so only those two cases protect the later non-null accesses. -/
theorem selected_paths_present :
    (∀ (subpath : String) (tree : List TreeEntry) (item : TreeEntry),
      subpath ≠ "" → item ∈ readTreeSelect subpath tree → item.path.isSome = true) ∧
    (∀ (m : String → Bool) (tree sel : List TreeEntry) (item : TreeEntry),
      searchSelectWith m tree = .ok sel → item ∈ sel → item.path.isSome = true) := by
  constructor
  · intro subpath tree item hne hmem
    rcases (mem_readTreeSelect_iff subpath tree item).mp hmem with ⟨_, _, hcase⟩
    rcases hcase with heq | ⟨p, hp, _⟩
    · exact absurd heq hne
    · rw [hp]; rfl
  · exact fun m tree sel item h hm => searchSelectWith_ok_paths m tree sel h item hm

/-- Witness for C10: a concrete non-empty sub-path selection and a
concrete successful search selection, both containing only entries with
present paths. -/
theorem selected_paths_present_witness :
    (⟨some "blob", some "docs/readme.md"⟩ : TreeEntry).path.isSome = true ∧
    (⟨some "blob", some "b.txt"⟩ : TreeEntry).path.isSome = true :=
  ⟨selected_paths_present.1 "docs" [⟨some "blob", some "docs/readme.md"⟩]
      ⟨some "blob", some "docs/readme.md"⟩ (by decide) (by decide),
    selected_paths_present.2 matchesGlobstar [⟨some "blob", some "b.txt"⟩]
      [⟨some "blob", some "b.txt"⟩] ⟨some "blob", some "b.txt"⟩ rfl (by decide)⟩

end Backstage
